import Mathlib

/-!
Shallow embedding of the job scheduling and notification core of
swift-walletconnect-service (src/services/QueueService.ts).

Modelling conventions:
* JavaScript `Map` objects are embedded as association lists in insertion
  order; `Map.set` replaces an existing key in place or appends a new one,
  which matches the iteration-order semantics of the source.
* Job ids (strings built from a timestamp and randomness in the source,
  unique in practice) are embedded as a monotone `Nat` counter.
* `Array.prototype.sort` is stable (ECMAScript 2019); the comparator
  `(a, b) => b.priority - a.priority` therefore yields the unique stable
  descending reordering, realised here by a stable insertion sort.
* A registered processor is an asynchronous function that either resolves
  or rejects with an error message; it is embedded as a pure function
  `Job -> Except String Unit` and its invocation together with the
  completion handling of `processJob` is taken as one atomic step.  The
  retry `setTimeout` is embedded as an explicit pending-timer record that
  a separate step may fire once its due time has been reached.
* JavaScript falsy coercions (`cfg.x || default`, `!payload.timestamp`)
  are embedded explicitly: the value 0 counts as absent.
-/

/-- Job status enum from the source. -/
inductive JobStatus where
  | pending
  | processing
  | completed
  | failed
  | retrying
deriving DecidableEq, Repr

/-- JobPriority.LOW = 0 in the source enum. -/
def lowPriority : Nat := 0

/-- JobPriority.NORMAL = 1 in the source enum. -/
def normalPriority : Nat := 1

/-- JobPriority.HIGH = 2 in the source enum. -/
def highPriority : Nat := 2

/-- JobPriority.CRITICAL = 3 in the source enum. -/
def criticalPriority : Nat := 3

/-- The Job record of the source; `data` is abstracted to a `Nat` payload. -/
structure Job where
  id : Nat
  type : String
  data : Nat
  priority : Nat
  status : JobStatus
  attempts : Nat
  maxAttempts : Nat
  createdAt : Nat
  updatedAt : Nat
  processedAt : Option Nat
  error : Option String
deriving DecidableEq, Repr

/-- QueueConfig: all fields optional, as in the source interface. -/
structure QueueConfig where
  maxConcurrent : Option Nat := none
  retryAttempts : Option Nat := none
  retryDelay : Option Nat := none
  processInterval : Option Nat := none
deriving DecidableEq, Repr

/-- The JavaScript expression `v || d`: both `undefined` and `0` are falsy. -/
def orDefault (v : Option Nat) (d : Nat) : Nat :=
  match v with
  | none => d
  | some n => if n = 0 then d else n

/-- The fully resolved configuration stored on the service. -/
structure ResolvedConfig where
  maxConcurrent : Nat
  retryAttempts : Nat
  retryDelay : Nat
  processInterval : Nat
deriving DecidableEq, Repr

/-- The constructor body of QueueService resolving the configuration. -/
def resolveConfig (c : QueueConfig) : ResolvedConfig :=
  { maxConcurrent := orDefault c.maxConcurrent 5
    retryAttempts := orDefault c.retryAttempts 3
    retryDelay := orDefault c.retryDelay 1000
    processInterval := orDefault c.processInterval 100 }

/-- Lifecycle events emitted by the scheduler, with the job snapshot. -/
inductive QEvent where
  | jobAdded (j : Job)
  | jobProcessing (j : Job)
  | jobCompleted (j : Job)
  | jobRetrying (j : Job)
  | jobFailed (j : Job)
deriving DecidableEq, Repr

/-- A pending `setTimeout` scheduled by the retry branch of processJob. -/
structure RetryTimer where
  job : Job
  due : Nat
deriving DecidableEq, Repr

/-- Association-list lookup, mirroring `Map.get`. -/
def lookupEntry {κ α : Type} [DecidableEq κ] : List (κ × α) → κ → Option α
  | [], _ => none
  | e :: rest, k => if e.1 = k then some e.2 else lookupEntry rest k

/-- Association-list insertion, mirroring `Map.set` (replace in place or append). -/
def setEntry {κ α : Type} [DecidableEq κ] : List (κ × α) → κ → α → List (κ × α)
  | [], k, v => [(k, v)]
  | e :: rest, k, v => if e.1 = k then (k, v) :: rest else e :: setEntry rest k v

/-- Apply a function to the value stored under a key (the first entry with
that key, the only one a `Map` can hold), leaving other entries alone. -/
def updateEntry {κ α : Type} [DecidableEq κ] :
    List (κ × α) → κ → (α → α) → List (κ × α)
  | [], _, _ => []
  | e :: rest, k, f =>
    if e.1 = k then (e.1, f e.2) :: rest else e :: updateEntry rest k f

/-- Insertion step of a stable descending sort.  The inserted job always
originates earlier in the unsorted list than every job of the already sorted
tail, so on equal priority it is placed first. -/
def insertJobDesc (j : Job) : List Job → List Job
  | [] => [j]
  | x :: xs => if j.priority < x.priority then x :: insertJobDesc j xs else j :: x :: xs

/-- The stable descending sort performed by `queue.sort((a, b) => b.priority - a.priority)`. -/
def jsSortDesc : List Job → List Job
  | [] => []
  | x :: xs => insertJobDesc x (jsSortDesc xs)

/-- `findIndex` by id followed by `splice(index, 1)`: drop the first job with
the given id, keep everything else. -/
def removeFirstById (i : Nat) : List Job → List Job
  | [] => []
  | j :: rest => if j.id = i then rest else j :: removeFirstById i rest

/-- The mutable state of QueueService. -/
structure QueueState where
  queues : List (String × List Job)
  processors : List (String × (Job → Except String Unit))
  processing : List String
  activeJobs : List (Nat × Job)
  timers : List RetryTimer
  events : List QEvent
  config : ResolvedConfig
  nextId : Nat
  now : Nat

/-- The state right after the QueueService constructor ran. -/
def initState (cfg : QueueConfig) : QueueState :=
  { queues := []
    processors := []
    processing := []
    activeJobs := []
    timers := []
    events := []
    config := resolveConfig cfg
    nextId := 0
    now := 0 }

/-- `Set.add`: insert a type into the in-flight mark set. -/
def addMark (t : String) (l : List String) : List String :=
  if t ∈ l then l else l ++ [t]

/-- `Set.delete`: remove a type from the in-flight mark set. -/
def delMark (t : String) (l : List String) : List String :=
  l.filter (fun x => x ≠ t)

/-- addJob: create a PENDING job, append it to the queue of its type
(creating the queue if needed), then sort the queue by priority descending. -/
def addJob (t : String) (d : Nat) (prio : Nat) (s : QueueState) : QueueState :=
  let job : Job :=
    { id := s.nextId
      type := t
      data := d
      priority := prio
      status := JobStatus.pending
      attempts := 0
      maxAttempts := s.config.retryAttempts
      createdAt := s.now
      updatedAt := s.now
      processedAt := none
      error := none }
  let queues1 :=
    match lookupEntry s.queues t with
    | some _ => s.queues
    | none => s.queues ++ [(t, [])]
  let queues2 := updateEntry queues1 t (fun q => jsSortDesc (q ++ [job]))
  { s with
    queues := queues2
    nextId := s.nextId + 1
    events := s.events ++ [QEvent.jobAdded job] }

/-- The scanning loop of getNextJob: skip empty queues and types that are
marked in-flight, replace the candidate only on strictly greater priority
(the initial candidate priority is -1, below every enum value). -/
def getNextJobAux (marks : List String) :
    List (String × List Job) → Option Job → Option Job
  | [], best => best
  | (t, q) :: rest, best =>
    match q with
    | [] => getNextJobAux marks rest best
    | j :: _ =>
      if t ∈ marks then getNextJobAux marks rest best
      else
        match best with
        | none => getNextJobAux marks rest (some j)
        | some b =>
          if b.priority < j.priority then getNextJobAux marks rest (some j)
          else getNextJobAux marks rest (some b)

/-- getNextJob from the source. -/
def getNextJob (s : QueueState) : Option Job :=
  getNextJobAux s.processing s.queues none

/-- removeJobFromQueue: splice the job out of the queue of its type, if that
queue exists. -/
def removeJobFromQueue (queues : List (String × List Job)) (j : Job) :
    List (String × List Job) :=
  updateEntry queues j.type (removeFirstById j.id)

/-- processJob: mark the type in-flight, remove the job from its queue, store
it in the active map, transition to PROCESSING, bump attempts, invoke the
processor, then handle success or failure; the `finally` block releases the
in-flight mark in every branch.  On failure with attempts below the limit the
retry `setTimeout` becomes a pending timer; the job stays in the active map.
On success the job is NOT removed from the active map (the source has no
`activeJobs.delete` on that path). -/
def processJob (s : QueueState) (job : Job) (proc : Job → Except String Unit) :
    QueueState :=
  let s1 := { s with
    processing := addMark job.type s.processing
    queues := removeJobFromQueue s.queues job }
  let j1 := { job with
    status := JobStatus.processing
    attempts := job.attempts + 1
    updatedAt := s.now }
  let s2 := { s1 with
    activeJobs := setEntry s1.activeJobs j1.id j1
    events := s1.events ++ [QEvent.jobProcessing j1] }
  match proc j1 with
  | Except.ok _ =>
    let j2 := { j1 with
      status := JobStatus.completed
      processedAt := some s.now
      updatedAt := s.now }
    { s2 with
      activeJobs := setEntry s2.activeJobs j2.id j2
      events := s2.events ++ [QEvent.jobCompleted j2]
      processing := delMark job.type s2.processing }
  | Except.error msg =>
    let jE := { j1 with error := some msg, updatedAt := s.now }
    if j1.attempts < j1.maxAttempts then
      let jR := { jE with status := JobStatus.retrying }
      { s2 with
        activeJobs := setEntry s2.activeJobs jR.id jR
        events := s2.events ++ [QEvent.jobRetrying jR]
        timers := s2.timers ++ [{ job := jR, due := s.now + s.config.retryDelay * jR.attempts }]
        processing := delMark job.type s2.processing }
    else
      let jF := { jE with status := JobStatus.failed }
      { s2 with
        activeJobs := s2.activeJobs.filter (fun e => e.1 ≠ jF.id)
        events := s2.events ++ [QEvent.jobFailed jF]
        processing := delMark job.type s2.processing }

/-- One tick of processJobs: do nothing when the active map is at the
concurrency limit, otherwise select a job; with no registered processor the
job is silently spliced out of its queue, otherwise it is dispatched. -/
def processJobs (s : QueueState) : QueueState :=
  if s.config.maxConcurrent ≤ s.activeJobs.length then s
  else
    match getNextJob s with
    | none => s
    | some job =>
      match lookupEntry s.processors job.type with
      | none => { s with queues := removeJobFromQueue s.queues job }
      | some proc => processJob s job proc

/-- The body of the retry `setTimeout` callback: push the job back into the
queue of its type (when that queue exists) and re-sort, then delete the job
from the active map unconditionally.  Fires only once its due time passed. -/
def fireTimer (i : Nat) (s : QueueState) : QueueState :=
  match s.timers[i]? with
  | none => s
  | some tm =>
    if tm.due ≤ s.now then
      let queues1 :=
        match lookupEntry s.queues tm.job.type with
        | none => s.queues
        | some _ => updateEntry s.queues tm.job.type (fun q => jsSortDesc (q ++ [tm.job]))
      { s with
        timers := s.timers.eraseIdx i
        queues := queues1
        activeJobs := s.activeJobs.filter (fun e => e.1 ≠ tm.job.id) }
    else s

/-- clearQueues: `queue.length = 0` on every stored queue array, keys kept. -/
def clearQueues (s : QueueState) : QueueState :=
  { s with queues := s.queues.map (fun e => (e.1, [])) }

/-- registerProcessor: `Map.set`, replacing any previous processor. -/
def registerProcessor (t : String) (p : Job → Except String Unit) (s : QueueState) :
    QueueState :=
  { s with processors := setEntry s.processors t p }

/-- External steps that can drive the scheduler state. -/
inductive QAction where
  | addJob (t : String) (d : Nat) (prio : Nat)
  | registerProcessor (t : String) (p : Job → Except String Unit)
  | tick
  | fireTimer (i : Nat)
  | clearQueues
  | elapse (n : Nat)

/-- Apply one step. -/
def applyAction (s : QueueState) : QAction → QueueState
  | QAction.addJob t d p => addJob t d p s
  | QAction.registerProcessor t p => registerProcessor t p s
  | QAction.tick => processJobs s
  | QAction.fireTimer i => fireTimer i s
  | QAction.clearQueues => clearQueues s
  | QAction.elapse n => { s with now := s.now + n }

/-- Run a sequence of steps. -/
def applyActions (acts : List QAction) (s : QueueState) : QueueState :=
  acts.foldl applyAction s

/-! ### NotificationService -/

/-- The fixed notification type enum of the source. -/
inductive NotificationType where
  | session_proposal
  | session_request
  | session_update
  | session_delete
  | session_expire
  | connection_update
  | error
deriving DecidableEq, Repr

/-- The three priority strings of a notification payload. -/
inductive NPriority where
  | low
  | normal
  | high
deriving DecidableEq, Repr

/-- NotificationPayload; `data` abstracted to a `Nat`. -/
structure NotificationPayload where
  type : NotificationType
  topic : String
  data : Nat
  timestamp : Option Nat
  priority : Option NPriority
deriving DecidableEq, Repr

/-- The four channel kinds. -/
inductive ChannelKind where
  | websocket
  | webhook
  | push
  | email
deriving DecidableEq, Repr

/-- NotificationChannel configuration record. -/
structure NotificationChannel where
  id : String
  kind : ChannelKind
  endpoint : Option String
  enabled : Bool
  filters : Option (List NotificationType)
deriving DecidableEq, Repr

/-- The skip conditions of the fan-out loop in deliverNotification: a channel
receives the payload iff it is enabled and its filters, when present, include
the payload type.  A present-but-empty filter array excludes every type, as
it does in the source (an empty array is truthy in JavaScript). -/
def channelMatches (ch : NotificationChannel) (p : NotificationPayload) : Bool :=
  ch.enabled &&
    (match ch.filters with
     | none => true
     | some fs => decide (p.type ∈ fs))

/-- deliverToChannel: the per-kind delivery strategy.  The websocket strategy
only emits a local event and always resolves; push and email are logging
stubs that always resolve; the webhook strategy performs an outbound POST
whose outcome is supplied by the network oracle `net` (a rejected fetch or a
non-2xx response is an error).  A webhook channel without an endpoint makes
`fetch` reject, hence an error. -/
def deliverToChannel (net : String → NotificationPayload → Except String Unit)
    (ch : NotificationChannel) (p : NotificationPayload) : Except String Unit :=
  match ch.kind with
  | ChannelKind.websocket => Except.ok ()
  | ChannelKind.webhook =>
    match ch.endpoint with
    | some e => net e p
    | none => Except.error "fetch failed: missing endpoint"
  | ChannelKind.push => Except.ok ()
  | ChannelKind.email => Except.ok ()

/-- deliverNotification: fan the payload out to every matching enabled
channel; each individual failure is caught at the channel boundary, and
`Promise.allSettled` waits until every attempted delivery has settled.  The
result lists, channel by channel in registry order, the settled outcome of
every attempted delivery. -/
def deliverNotification (net : String → NotificationPayload → Except String Unit)
    (channels : List (String × NotificationChannel)) (p : NotificationPayload) :
    List (String × Except String Unit) :=
  channels.filterMap (fun e =>
    if channelMatches e.2 p then some (e.1, deliverToChannel net e.2 p) else none)

/-- The mutable state of NotificationService. -/
structure NotifState where
  channels : List (String × NotificationChannel)
  queue : List NotificationPayload
  processing : Bool
deriving Repr

/-- The default websocket channel added by initializeDefaultChannels. -/
def wsChannel : NotificationChannel :=
  { id := "websocket"
    kind := ChannelKind.websocket
    endpoint := none
    enabled := true
    filters := none }

/-- The default webhook channel added when WEBHOOK_URL is set. -/
def webhookChannel (url : String) : NotificationChannel :=
  { id := "webhook"
    kind := ChannelKind.webhook
    endpoint := some url
    enabled := true
    filters := none }

/-- initializeDefaultChannels, parameterised by the WEBHOOK_URL environment
variable (`none` when unset). -/
def initializeDefaultChannels (webhookUrl : Option String) :
    List (String × NotificationChannel) :=
  let c1 := setEntry ([] : List (String × NotificationChannel)) "websocket" wsChannel
  match webhookUrl with
  | none => c1
  | some url => setEntry c1 "webhook" (webhookChannel url)

/-- State right after the NotificationService constructor ran. -/
def initNotifState (webhookUrl : Option String) : NotifState :=
  { channels := initializeDefaultChannels webhookUrl
    queue := []
    processing := false }

/-- The default stamping at the top of sendNotification.  A timestamp of 0 is
falsy in JavaScript and is overwritten like an absent one. -/
def stampPayload (now : Nat) (p : NotificationPayload) : NotificationPayload :=
  let ts := match p.timestamp with
    | none => some now
    | some t => if t = 0 then some now else some t
  let pr := match p.priority with
    | none => some NPriority.normal
    | some x => some x
  { p with timestamp := ts, priority := pr }

/-- The drain loop of processQueue: shift payloads off the queue one at a
time and fully deliver each before the next; collects, payload by payload,
the settled per-channel outcomes. -/
def drainQueue (net : String → NotificationPayload → Except String Unit)
    (channels : List (String × NotificationChannel)) :
    List NotificationPayload →
    List (NotificationPayload × List (String × Except String Unit))
  | [] => []
  | p :: rest => (p, deliverNotification net channels p) :: drainQueue net channels rest

/-- sendNotification: stamp defaults, push the payload onto the queue, and
start the drain only when the single-flight guard is clear; when a drain is
already marked as running the call returns at once with the payload still
queued and no delivery performed by this call.  The second component lists
the deliveries that settled before this call returned. -/
def sendNotification (net : String → NotificationPayload → Except String Unit)
    (now : Nat) (s : NotifState) (p : NotificationPayload) :
    NotifState × List (NotificationPayload × List (String × Except String Unit)) :=
  let p1 := stampPayload now p
  let s1 := { s with queue := s.queue ++ [p1] }
  if s.processing then (s1, [])
  else ({ s1 with queue := [] }, drainQueue net s1.channels s1.queue)

/-! ### Specification-side definitions and proof fixtures -/

/-- The heads that the selection scan considers, in map iteration order:
one head per type whose queue is non-empty and that carries no in-flight
mark.  Written from the words of the dispatch-loop specification. -/
def eligibleHeadsAux (marks : List String) :
    List (String × List Job) → List Job :=
  List.filterMap (fun e =>
    match e.2 with
    | [] => none
    | j :: _ => if e.1 ∈ marks then none else some j)

/-- Eligible queue heads of a scheduler state. -/
def eligibleHeads (s : QueueState) : List Job :=
  eligibleHeadsAux s.processing s.queues

/-- Greatest priority among a list of jobs (0 when empty). -/
def headsMax (l : List Job) : Nat :=
  l.foldr (fun j m => max j.priority m) 0

/-- The head with strictly greatest priority, keeping the first found on
ties: the first job of the list attaining the maximal priority.  Written
from the words of the dispatch-loop specification. -/
def selectFirstMax (l : List Job) : Option Job :=
  l.find? (fun j => j.priority == headsMax l)

/-- Reference form of the candidate-replacement scan of getNextJob. -/
def pickBest : Option Job → List Job → Option Job
  | best, [] => best
  | none, j :: rest => pickBest (some j) rest
  | some b, j :: rest =>
    if b.priority < j.priority then pickBest (some j) rest
    else pickBest (some b) rest

/-- The job snapshot carried by a lifecycle event. -/
def eventJob : QEvent → Job
  | QEvent.jobAdded j => j
  | QEvent.jobProcessing j => j
  | QEvent.jobCompleted j => j
  | QEvent.jobRetrying j => j
  | QEvent.jobFailed j => j

/-- Every job record reachable through the state: queued jobs, active jobs,
jobs held by pending retry timers, and the snapshots carried by events. -/
def allJobs (s : QueueState) : List Job :=
  (s.queues.map Prod.snd).flatten ++ s.activeJobs.map Prod.snd ++
    s.timers.map RetryTimer.job ++ s.events.map eventJob

/-- A job waiting in a queue or held by a retry timer: it has attempts left
and is not FAILED. -/
def QJob (x : Job) : Prop :=
  x.attempts < x.maxAttempts ∧ x.status ≠ JobStatus.failed

/-- A job in the active map: within its budget and not FAILED. -/
def AJob (x : Job) : Prop :=
  x.attempts ≤ x.maxAttempts ∧ x.status ≠ JobStatus.failed

/-- An event snapshot: within its budget, and exactly at it when FAILED. -/
def EJob (x : Job) : Prop :=
  x.attempts ≤ x.maxAttempts ∧
    (x.status = JobStatus.failed → x.attempts = x.maxAttempts)

/-- Inductive invariant of the scheduler: the resolved retry budget is
positive, queued and timer-held jobs still have attempts left and are not
FAILED, active jobs never exceed their budget and are not FAILED, and every
event snapshot respects the budget, with FAILED snapshots exactly at it. -/
def QueueInv (s : QueueState) : Prop :=
  0 < s.config.retryAttempts ∧
  (∀ e ∈ s.queues, ∀ x ∈ e.2, QJob x) ∧
  (∀ tm ∈ s.timers, QJob tm.job) ∧
  (∀ e ∈ s.activeJobs, AJob e.2) ∧
  (∀ ev ∈ s.events, EJob (eventJob ev))

/-- A processor that always resolves. -/
def procOk : Job → Except String Unit := fun _ => Except.ok ()

/-- A processor that always rejects with the message "boom". -/
def procBoom : Job → Except String Unit := fun _ => Except.error "boom"

/-- A processor that always rejects, with a message that identifies the last
attempt. -/
def procAlwaysFails : Job → Except String Unit :=
  fun j => Except.error (if j.attempts = 3 then "final failure" else "transient")

/-- Fixture for C1: one job of a registered type whose processor succeeds. -/
def c1State : QueueState := applyActions
  [ QAction.registerProcessor "email" procOk,
    QAction.addJob "email" 1 normalPriority,
    QAction.tick ] (initState {})

/-- Fixture for C1: concurrency limit 1, a successful job, then a second
job of the same type and another tick. -/
def c1StarvedState : QueueState := applyActions
  [ QAction.registerProcessor "email" procOk,
    QAction.addJob "email" 1 normalPriority,
    QAction.tick,
    QAction.addJob "email" 2 normalPriority,
    QAction.tick ] (initState { maxConcurrent := some 1 })

/-- Fixture for C2: two same-type jobs under an always-failing processor,
ticked twice with no time elapsed, so the first retry timer never fired. -/
def c2State : QueueState := applyActions
  [ QAction.registerProcessor "t" procBoom,
    QAction.addJob "t" 1 normalPriority,
    QAction.addJob "t" 2 normalPriority,
    QAction.tick, QAction.tick ] (initState {})

/-- Fixture for the C2 witness: one failing job ready to dispatch. -/
def c2PreState : QueueState := applyActions
  [ QAction.registerProcessor "t" procBoom,
    QAction.addJob "t" 1 normalPriority ] (initState {})

/-- The job sitting at the head of the fixture queue of c2PreState. -/
def c2PreJob : Job :=
  { id := 0
    type := "t"
    data := 1
    priority := normalPriority
    status := JobStatus.pending
    attempts := 0
    maxAttempts := 3
    createdAt := 0
    updatedAt := 0
    processedAt := none
    error := none }

/-- Fixture for C3, after two failed attempts of the always-failing job. -/
def c3TwoAttemptActions : List QAction :=
  [ QAction.registerProcessor "x" procAlwaysFails,
    QAction.addJob "x" 0 normalPriority,
    QAction.tick,
    QAction.elapse 10000, QAction.fireTimer 0,
    QAction.tick ]

/-- Fixture for C3, after the third and final failed attempt. -/
def c3ThreeAttemptActions : List QAction :=
  c3TwoAttemptActions ++
    [ QAction.elapse 10000, QAction.fireTimer 0, QAction.tick ]

/-- Ids of the jobs for which a PROCESSING transition was emitted, oldest
first. -/
def processedIds (s : QueueState) : List Nat :=
  s.events.filterMap (fun e =>
    match e with
    | QEvent.jobProcessing j => some j.id
    | _ => none)

/-- Payload data of the jobs for which a PROCESSING transition was emitted,
oldest first. -/
def processedData (s : QueueState) : List Nat :=
  s.events.filterMap (fun e =>
    match e with
    | QEvent.jobProcessing j => some j.data
    | _ => none)

/-- Attempt count and error message of every FAILED transition emitted. -/
def failedRecords (s : QueueState) : List (Nat × Option String) :=
  s.events.filterMap (fun e =>
    match e with
    | QEvent.jobFailed j => some (j.attempts, j.error)
    | _ => none)

/-- A job list is sorted by priority descending. -/
def sortedDesc (l : List Job) : Prop :=
  List.Pairwise (fun a b => b.priority ≤ a.priority) l

/-- Fixture for C7: a HIGH then a LOW job on one type. -/
def c7MidState : QueueState := applyActions
  [ QAction.registerProcessor "email" procOk,
    QAction.addJob "email" 10 highPriority,
    QAction.addJob "email" 20 lowPriority ] (initState {})

/-- Fixture for C7: the same run after two dispatch ticks. -/
def c7FinalState : QueueState :=
  applyActions [ QAction.tick, QAction.tick ] c7MidState

/-- Fixture for C6: one pending job of a type with no registered processor. -/
def c6PreState : QueueState :=
  applyActions [ QAction.addJob "unregistered_type" 7 normalPriority ]
    (initState {})

/-- The job sitting in the fixture queue of c6PreState. -/
def c6PreJob : Job :=
  { id := 0
    type := "unregistered_type"
    data := 7
    priority := normalPriority
    status := JobStatus.pending
    attempts := 0
    maxAttempts := 3
    createdAt := 0
    updatedAt := 0
    processedAt := none
    error := none }

/-- A network oracle that accepts every webhook POST. -/
def netOk : String → NotificationPayload → Except String Unit :=
  fun _ _ => Except.ok ()

/-- A concrete payload without timestamp or priority. -/
def pEx : NotificationPayload :=
  { type := NotificationType.session_request
    topic := "topic1"
    data := 0
    timestamp := none
    priority := none }

/-- Fixture for C4: a dispatcher whose single-flight guard is set, as it is
while an earlier drain is suspended on an outbound delivery. -/
def busyNotifState : NotifState :=
  { channels := [("websocket", wsChannel)]
    queue := []
    processing := true }

/-- Fixture for the C4 witness: an idle dispatcher with one enabled
unfiltered channel and one enabled channel filtered to another type. -/
def idleNotifState : NotifState :=
  { channels :=
      [ ("websocket", wsChannel),
        ("audit", { id := "audit"
                    kind := ChannelKind.webhook
                    endpoint := some "https://audit.example"
                    enabled := true
                    filters := some [NotificationType.session_delete] }) ]
    queue := []
    processing := false }

/-- Types of the jobs for which a PROCESSING transition was emitted. -/
def processedTypes (s : QueueState) : List String :=
  s.events.filterMap (fun e =>
    match e with
    | QEvent.jobProcessing j => some j.type
    | _ => none)

/-- Total number of jobs sitting in pending queues. -/
def queuedCount (s : QueueState) : Nat :=
  (s.queues.map (fun e => e.2.length)).sum

/-- Fixture for the C5 witness: concurrency limit 1 with one job active. -/
def c5BusyState : QueueState :=
  { initState { maxConcurrent := some 1 } with
      activeJobs := [(0,
        { id := 0
          type := "t"
          data := 0
          priority := normalPriority
          status := JobStatus.processing
          attempts := 1
          maxAttempts := 3
          createdAt := 0
          updatedAt := 0
          processedAt := none
          error := none })] }

/-- Fixture for the C7 witness: two bare addJob calls folded from the
initial state. -/
def c7FoldState : QueueState :=
  ([(10, highPriority), (20, lowPriority)] : List (Nat × Nat)).foldl
    (fun st dp => addJob "email" dp.1 dp.2 st) (initState {})

/-- The email queue of c7FoldState. -/
def c7WitnessQueue : List Job :=
  match lookupEntry c7FoldState.queues "email" with
  | some q => q
  | none => []

/-- The terminal snapshot of the always-failing job of the C3 scenario. -/
def c3FailedJob : Job :=
  { id := 0
    type := "x"
    data := 0
    priority := normalPriority
    status := JobStatus.failed
    attempts := 3
    maxAttempts := 3
    createdAt := 0
    updatedAt := 20000
    processedAt := none
    error := some "final failure" }

/-- The RETRYING snapshot of the fixture job of c2PreState after its first
failure. -/
def c2RetryJob : Job :=
  { c2PreJob with
      status := JobStatus.retrying
      attempts := 1
      updatedAt := 0
      error := some "boom" }

/-! ### Helper lemmas -/

theorem orDefault_pos (v : Option Nat) (d : Nat) (hd : 0 < d) :
    0 < orDefault v d := by
  cases v with
  | none => simpa [orDefault] using hd
  | some n =>
    simp only [orDefault]
    split
    · exact hd
    · omega

theorem mem_insertJobDesc (x j : Job) (l : List Job) :
    x ∈ insertJobDesc j l ↔ x = j ∨ x ∈ l := by
  induction l with
  | nil => simp [insertJobDesc]
  | cons y ys ih =>
    simp only [insertJobDesc]
    split
    · simp only [List.mem_cons, ih]
      tauto
    · simp only [List.mem_cons]

theorem sortedDesc_cons (x : Job) (xs : List Job) :
    sortedDesc (x :: xs) ↔
      (∀ y ∈ xs, y.priority ≤ x.priority) ∧ sortedDesc xs := by
  simp [sortedDesc, List.pairwise_cons]

theorem mem_jsSortDesc (x : Job) (l : List Job) :
    x ∈ jsSortDesc l ↔ x ∈ l := by
  induction l with
  | nil => simp [jsSortDesc]
  | cons y ys ih =>
    simp only [jsSortDesc, mem_insertJobDesc, ih, List.mem_cons]

theorem sortedDesc_insertJobDesc (j : Job) (l : List Job)
    (h : sortedDesc l) : sortedDesc (insertJobDesc j l) := by
  induction l with
  | nil => simp [insertJobDesc, sortedDesc]
  | cons x xs ih =>
    rw [sortedDesc_cons] at h
    simp only [insertJobDesc]
    by_cases hc : j.priority < x.priority
    · rw [if_pos hc, sortedDesc_cons]
      constructor
      · intro y hy
        rcases (mem_insertJobDesc y j xs).mp hy with h1 | h1
        · subst h1; omega
        · exact h.1 y h1
      · exact ih h.2
    · rw [if_neg hc, sortedDesc_cons]
      constructor
      · intro y hy
        rcases List.mem_cons.mp hy with h1 | h1
        · subst h1; omega
        · have := h.1 y h1
          omega
      · rw [sortedDesc_cons]
        exact h

theorem sortedDesc_jsSortDesc (l : List Job) : sortedDesc (jsSortDesc l) := by
  induction l with
  | nil => simp [jsSortDesc, sortedDesc]
  | cons x xs ih => exact sortedDesc_insertJobDesc x (jsSortDesc xs) ih

theorem mem_removeFirstById (x : Job) (i : Nat) (l : List Job)
    (h : x ∈ removeFirstById i l) : x ∈ l := by
  induction l with
  | nil => simp [removeFirstById] at h
  | cons y ys ih =>
    simp only [removeFirstById] at h
    split at h
    · exact List.mem_cons_of_mem y h
    · rcases List.mem_cons.mp h with h1 | h1
      · exact h1 ▸ List.mem_cons_self y ys
      · exact List.mem_cons_of_mem y (ih h1)

theorem length_removeFirstById (i : Nat) (l : List Job) :
    (removeFirstById i l).length ≤ l.length ∧
      l.length ≤ (removeFirstById i l).length + 1 := by
  induction l with
  | nil => simp [removeFirstById]
  | cons y ys ih =>
    simp only [removeFirstById]
    split
    · simp only [List.length_cons]
      omega
    · simp only [List.length_cons]
      omega

theorem mem_setEntry {κ α : Type} [DecidableEq κ] (e : κ × α)
    (m : List (κ × α)) (k : κ) (v : α)
    (h : e ∈ setEntry m k v) : e = (k, v) ∨ e ∈ m := by
  induction m with
  | nil =>
    simp [setEntry] at h
    exact Or.inl h
  | cons y ys ih =>
    simp only [setEntry] at h
    split at h
    · rcases List.mem_cons.mp h with h1 | h1
      · exact Or.inl h1
      · exact Or.inr (List.mem_cons_of_mem y h1)
    · rcases List.mem_cons.mp h with h1 | h1
      · exact Or.inr (h1 ▸ List.mem_cons_self y ys)
      · rcases ih h1 with h2 | h2
        · exact Or.inl h2
        · exact Or.inr (List.mem_cons_of_mem y h2)

theorem mem_setEntry_self {κ α : Type} [DecidableEq κ]
    (m : List (κ × α)) (k : κ) (v : α) : (k, v) ∈ setEntry m k v := by
  induction m with
  | nil => simp [setEntry]
  | cons y ys ih =>
    simp only [setEntry]
    split
    · exact List.mem_cons_self _ _
    · exact List.mem_cons_of_mem y ih

theorem mem_updateEntry {κ α : Type} [DecidableEq κ] (e : κ × α)
    (m : List (κ × α)) (k : κ) (f : α → α)
    (h : e ∈ updateEntry m k f) :
    ∃ e0, e0 ∈ m ∧ (e = (e0.1, f e0.2) ∨ e = e0) := by
  induction m with
  | nil => simp [updateEntry] at h
  | cons y ys ih =>
    simp only [updateEntry] at h
    split at h
    · rcases List.mem_cons.mp h with h1 | h1
      · exact ⟨y, List.mem_cons_self y ys, Or.inl h1⟩
      · exact ⟨e, List.mem_cons_of_mem y h1, Or.inr rfl⟩
    · rcases List.mem_cons.mp h with h1 | h1
      · exact ⟨y, List.mem_cons_self y ys, Or.inr h1⟩
      · rcases ih h1 with ⟨e0, he0, hor⟩
        exact ⟨e0, List.mem_cons_of_mem y he0, hor⟩

theorem lookupEntry_updateEntry {κ α : Type} [DecidableEq κ]
    (m : List (κ × α)) (k : κ) (f : α → α) :
    lookupEntry (updateEntry m k f) k = (lookupEntry m k).map f := by
  induction m with
  | nil => simp [updateEntry, lookupEntry]
  | cons y ys ih =>
    by_cases hk : y.1 = k
    · simp [updateEntry, lookupEntry, hk]
    · simp only [updateEntry, if_neg hk]
      simp only [lookupEntry, if_neg hk]
      exact ih

theorem sum_updateEntry_remove (m : List (String × List Job)) (k : String)
    (i : Nat) :
    ((updateEntry m k (removeFirstById i)).map (fun e => e.2.length)).sum ≤
        (m.map (fun e => e.2.length)).sum ∧
      (m.map (fun e => e.2.length)).sum ≤
        ((updateEntry m k (removeFirstById i)).map (fun e => e.2.length)).sum + 1 := by
  induction m with
  | nil => simp [updateEntry]
  | cons y ys ih =>
    simp only [updateEntry]
    split
    · simp only [List.map_cons, List.sum_cons]
      have := length_removeFirstById i y.2
      omega
    · simp only [List.map_cons, List.sum_cons]
      omega

theorem not_mem_delMark (t : String) (l : List String) :
    t ∉ delMark t l := by
  simp [delMark]

theorem headsMax_cons (j : Job) (t : List Job) :
    headsMax (j :: t) = max j.priority (headsMax t) := rfl

theorem getNextJobAux_eq_pickBest (marks : List String) (qs : List (String × List Job)) :
    ∀ best, getNextJobAux marks qs best = pickBest best (eligibleHeadsAux marks qs) := by
  induction qs with
  | nil =>
    intro best
    cases best with
    | none => simp [getNextJobAux, pickBest, eligibleHeadsAux]
    | some b => simp [getNextJobAux, pickBest, eligibleHeadsAux]
  | cons e rest ih =>
    intro best
    rcases e with ⟨t, q⟩
    cases q with
    | nil =>
      simpa [getNextJobAux, eligibleHeadsAux, List.filterMap_cons] using ih best
    | cons j tl =>
      by_cases ht : t ∈ marks
      · simpa [getNextJobAux, eligibleHeadsAux, List.filterMap_cons, ht] using ih best
      · cases best with
        | none =>
          simpa [getNextJobAux, eligibleHeadsAux, List.filterMap_cons, ht, pickBest]
            using ih (some j)
        | some b =>
          by_cases hp : b.priority < j.priority
          · simpa [getNextJobAux, eligibleHeadsAux, List.filterMap_cons, ht, hp, pickBest]
              using ih (some j)
          · simpa [getNextJobAux, eligibleHeadsAux, List.filterMap_cons, ht, hp, pickBest]
              using ih (some b)

theorem pickBest_some (l : List Job) :
    ∀ b, pickBest (some b) l =
      if b.priority < headsMax l then l.find? (fun j => j.priority == headsMax l)
      else some b := by
  induction l with
  | nil =>
    intro b
    simp [pickBest, headsMax]
  | cons j t ih =>
    intro b
    simp only [pickBest]
    by_cases hbj : b.priority < j.priority
    · rw [if_pos hbj, ih j]
      by_cases hjt : j.priority < headsMax t
      · rw [if_pos hjt]
        have h1 : headsMax (j :: t) = headsMax t := by
          rw [headsMax_cons]; omega
        rw [h1, if_pos (by omega : b.priority < headsMax t),
          List.find?_cons_of_neg _ (by simp; omega)]
      · rw [if_neg hjt]
        have h1 : headsMax (j :: t) = j.priority := by
          rw [headsMax_cons]; omega
        rw [h1, if_pos hbj, List.find?_cons_of_pos _ (by simp)]
    · rw [if_neg hbj, ih b]
      by_cases hbt : b.priority < headsMax t
      · rw [if_pos hbt]
        have h1 : headsMax (j :: t) = headsMax t := by
          rw [headsMax_cons]; omega
        rw [h1, if_pos hbt, List.find?_cons_of_neg _ (by simp; omega)]
      · rw [if_neg hbt]
        have h1 : ¬ b.priority < headsMax (j :: t) := by
          rw [headsMax_cons]; omega
        rw [if_neg h1]

theorem pickBest_none (l : List Job) : pickBest none l = selectFirstMax l := by
  cases l with
  | nil => simp [pickBest, selectFirstMax]
  | cons j t =>
    simp only [pickBest, selectFirstMax, pickBest_some t j]
    by_cases hjt : j.priority < headsMax t
    · rw [if_pos hjt]
      have h1 : headsMax (j :: t) = headsMax t := by
        rw [headsMax_cons]; omega
      rw [h1, List.find?_cons_of_neg _ (by simp; omega)]
    · rw [if_neg hjt]
      have h1 : headsMax (j :: t) = j.priority := by
        rw [headsMax_cons]; omega
      rw [h1, List.find?_cons_of_pos _ (by simp)]

theorem getNextJob_eq_selectFirstMax (s : QueueState) :
    getNextJob s = selectFirstMax (eligibleHeads s) := by
  rw [getNextJob, getNextJobAux_eq_pickBest, pickBest_none, eligibleHeads]

theorem mem_eligibleHeads (s : QueueState) (j : Job)
    (h : j ∈ eligibleHeads s) : ∃ e ∈ s.queues, j ∈ e.2 := by
  rcases List.mem_filterMap.mp h with ⟨e, he, heq⟩
  refine ⟨e, he, ?_⟩
  rcases e with ⟨t, q⟩
  cases q with
  | nil => simp at heq
  | cons j0 tl =>
    by_cases ht : t ∈ s.processing
    · simp [ht] at heq
    · simp [ht] at heq
      subst heq
      exact List.mem_cons_self _ _

theorem getNextJob_mem (s : QueueState) (j : Job)
    (h : getNextJob s = some j) : ∃ e ∈ s.queues, j ∈ e.2 := by
  rw [getNextJob_eq_selectFirstMax] at h
  exact mem_eligibleHeads s j (List.mem_of_find?_eq_some h)

theorem allSorted_addJob (s : QueueState) (t : String) (d p : Nat)
    (h : ∀ e ∈ s.queues, sortedDesc e.2) :
    ∀ e ∈ (addJob t d p s).queues, sortedDesc e.2 := by
  intro e he
  simp only [addJob] at he
  rcases mem_updateEntry e _ _ _ he with ⟨e0, he0, hor⟩
  rcases hor with h1 | h1
  · subst h1
    exact sortedDesc_jsSortDesc _
  · subst h1
    rcases hm : lookupEntry s.queues t with _ | q
    · rw [hm] at he0
      rcases List.mem_append.mp he0 with h2 | h2
      · exact h e h2
      · simp at h2
        subst h2
        simp [sortedDesc]
    · rw [hm] at he0
      exact h e he0

theorem drainQueue_eq_map (net : String → NotificationPayload → Except String Unit)
    (channels : List (String × NotificationChannel)) (l : List NotificationPayload) :
    drainQueue net channels l =
      l.map (fun q => (q, deliverNotification net channels q)) := by
  induction l with
  | nil => rfl
  | cons p rest ih => simp [drainQueue, ih]

theorem deliverNotification_eq_filter_map
    (net : String → NotificationPayload → Except String Unit)
    (channels : List (String × NotificationChannel)) (p : NotificationPayload) :
    deliverNotification net channels p =
      (channels.filter (fun e => channelMatches e.2 p)).map
        (fun e => (e.1, deliverToChannel net e.2 p)) := by
  induction channels with
  | nil => rfl
  | cons c rest ih =>
    by_cases hc : channelMatches c.2 p
    · simp [deliverNotification, List.filterMap_cons, List.filter_cons, hc] at ih ⊢
      exact ih
    · simp [deliverNotification, List.filterMap_cons, List.filter_cons, hc] at ih ⊢
      exact ih

theorem fireTimer_requeues (t : QueueState) (i : Nat) (tm : RetryTimer)
    (hget : t.timers[i]? = some tm) (hdue : tm.due ≤ t.now) :
    (fireTimer i t).activeJobs = t.activeJobs.filter (fun e => e.1 ≠ tm.job.id) ∧
      (∀ q, lookupEntry t.queues tm.job.type = some q →
        lookupEntry (fireTimer i t).queues tm.job.type =
          some (jsSortDesc (q ++ [tm.job]))) := by
  constructor
  · simp [fireTimer, hget, hdue]
  · intro q hq
    simp only [fireTimer, hget, hdue, if_pos, hq]
    simp [lookupEntry_updateEntry, hq]

/-! ### Claim theorems -/

/-- C1 (code bug): after a successful processor invocation the job is
transitioned to COMPLETED, processedAt is stamped and the in-flight mark of
its type is released, but the job is NOT removed from the active set — the
success path of processJob never deletes from activeJobs.  Consequently,
with concurrency limit 1, one completed job permanently occupies the only
concurrency slot: a later job of the same type stays queued and is never
dispatched. -/
theorem c1_completed_job_retained_and_blocks_slot :
    c1State.activeJobs.map (fun e => (e.1, e.2.status, e.2.processedAt)) =
        [(0, JobStatus.completed, some 0)] ∧
      c1State.processing = [] ∧
      processedIds c1StarvedState = [0] ∧
      (lookupEntry c1StarvedState.queues "email").map (List.map Job.id) =
        some [1] ∧
      c1StarvedState.activeJobs.map (fun e => (e.1, e.2.status)) =
        [(0, JobStatus.completed)] := by
  exact ⟨rfl, rfl, rfl, rfl, rfl⟩

/-- C2 (counterexample): with an always-failing processor and two NORMAL
jobs of type t, the first tick leaves job 0 RETRYING with a pending backoff
timer due at 1000 while the clock is still 0, yet the very next tick
dispatches job 1 of the same type t: the PROCESSING events list both ids
even though the backoff timer of job 0 never fired.  This refutes the claim
that no other job of type T is dispatched during the backoff window. -/
theorem c2_dispatch_during_backoff_counterexample :
    processedIds c2State = [0, 1] ∧
      processedTypes c2State = ["t", "t"] ∧
      c2State.timers.map (fun tm => (tm.job.id, tm.due)) = [(0, 1000), (1, 1000)] ∧
      c2State.now = 0 ∧
      c2State.activeJobs.map (fun e => (e.1, e.2.status)) =
        [(0, JobStatus.retrying), (1, JobStatus.retrying)] := by
  exact ⟨rfl, rfl, rfl, rfl, rfl⟩

/-- C4 (counterexample): when the single-flight guard of the dispatcher is
already set (a drain is in progress), sendNotification returns with the
payload merely appended to the queue and no delivery settled by this call,
even though an enabled channel matching the payload exists — so the
returned completion does not wait for delivery to settle. -/
theorem c4_resolves_before_settle_counterexample :
    (sendNotification netOk 5 busyNotifState pEx).2 = [] ∧
      (sendNotification netOk 5 busyNotifState pEx).1.queue = [stampPayload 5 pEx] ∧
      channelMatches wsChannel (stampPayload 5 pEx) = true ∧
      busyNotifState.channels = [("websocket", wsChannel)] := by
  exact ⟨rfl, rfl, rfl, rfl⟩

/-- C8: clearQueues empties every pending queue (keeping the queue keys)
and changes nothing else — the active set, the in-flight marks, the pending
retry timers, the emitted events and the configuration are untouched, so
jobs currently PROCESSING or RETRYING are unaffected. -/
theorem c8_clearQueues_frame (s : QueueState) :
    (clearQueues s).activeJobs = s.activeJobs ∧
      (clearQueues s).processing = s.processing ∧
      (clearQueues s).timers = s.timers ∧
      (clearQueues s).events = s.events ∧
      (clearQueues s).config = s.config ∧
      (clearQueues s).queues.map Prod.fst = s.queues.map Prod.fst ∧
      ∀ e ∈ (clearQueues s).queues, e.2 = ([] : List Job) := by
  refine ⟨rfl, rfl, rfl, rfl, rfl, ?_, ?_⟩
  · simp [clearQueues]
  · intro e he
    rcases List.mem_map.mp he with ⟨e0, _, heq⟩
    rw [← heq]

/-- C9: constructing the scheduler with any configuration field set to 0
yields the corresponding default (5, 3, 1000, 100) because falsy values are
overridden by the or-default coercion, and every resolved field is always
positive: zero concurrency, zero retry attempts, zero backoff delay and a
zero tick interval are unconfigurable. -/
theorem c9_zero_config_coerced_to_defaults (c : QueueConfig) :
    (resolveConfig { c with maxConcurrent := some 0 }).maxConcurrent = 5 ∧
      (resolveConfig { c with retryAttempts := some 0 }).retryAttempts = 3 ∧
      (resolveConfig { c with retryDelay := some 0 }).retryDelay = 1000 ∧
      (resolveConfig { c with processInterval := some 0 }).processInterval = 100 ∧
      0 < (resolveConfig c).maxConcurrent ∧
      0 < (resolveConfig c).retryAttempts ∧
      0 < (resolveConfig c).retryDelay ∧
      0 < (resolveConfig c).processInterval := by
  refine ⟨rfl, rfl, rfl, rfl, ?_, ?_, ?_, ?_⟩ <;>
    exact orDefault_pos _ _ (by omega)

/-- C10: a newly constructed NotificationService always holds the enabled
websocket channel under id websocket, holds a webhook channel exactly when
the WEBHOOK_URL environment variable is set, and the websocket channel
(enabled, unfiltered) receives a settled successful delivery for every
payload, whatever the network does. -/
theorem c10_default_websocket_channel :
    (∀ u, lookupEntry (initNotifState u).channels "websocket" = some wsChannel) ∧
      lookupEntry (initNotifState none).channels "webhook" = none ∧
      (∀ url, lookupEntry (initNotifState (some url)).channels "webhook" =
        some (webhookChannel url)) ∧
      (∀ u net p, ("websocket", Except.ok ()) ∈
        deliverNotification net (initNotifState u).channels p) := by
  refine ⟨?_, rfl, fun url => rfl, ?_⟩
  · intro u
    cases u <;> rfl
  · intro u net p
    cases u <;>
      simp [initNotifState, initializeDefaultChannels, setEntry,
        deliverNotification, List.filterMap_cons, channelMatches, wsChannel,
        deliverToChannel]

theorem processJob_queues (s : QueueState) (job : Job)
    (proc : Job → Except String Unit) :
    (processJob s job proc).queues = removeJobFromQueue s.queues job := by
  simp only [processJob]
  split
  · rfl
  · split <;> rfl

theorem allSorted_foldl_addJob (ops : List (Nat × Nat)) :
    ∀ s, (∀ e ∈ s.queues, sortedDesc e.2) →
      ∀ e ∈ (ops.foldl (fun st dp => addJob "email" dp.1 dp.2 st) s).queues,
        sortedDesc e.2 := by
  induction ops with
  | nil =>
    intro s h
    simpa using h
  | cons dp rest ih =>
    intro s h
    exact ih _ (allSorted_addJob s "email" dp.1 dp.2 h)

/-- C6: when the dispatch loop selects a job whose type has no registered
processor, the only state change is that the job is spliced out of its
queue: the active set, the in-flight marks, the timers and the event list
are untouched, so the job never transitions to PROCESSING, no retry is
scheduled, no terminal status is recorded and no lifecycle event is emitted
for it. -/
theorem c6_missing_processor_silent_drop (s : QueueState) (j : Job)
    (hc : s.activeJobs.length < s.config.maxConcurrent)
    (hj : getNextJob s = some j)
    (hp : lookupEntry s.processors j.type = none) :
    processJobs s = { s with queues := removeJobFromQueue s.queues j } := by
  have hguard : ¬ s.config.maxConcurrent ≤ s.activeJobs.length := by omega
  simp [processJobs, hguard, hj, hp]

/-- C6 witness: the silent-drop step evaluated on the concrete fixture. -/
theorem c6_missing_processor_silent_drop_witness :
    processJobs c6PreState =
      { c6PreState with queues := removeJobFromQueue c6PreState.queues c6PreJob } :=
  c6_missing_processor_silent_drop c6PreState c6PreJob (by decide) rfl rfl

/-- C5: on every tick, if the active set has at least maxConcurrent entries
nothing happens; the selected job is always the first eligible queue head
(non-empty queue, type not marked in-flight, heads in map iteration order)
attaining the greatest priority, so a strictly greater priority wins and
the first-found head is kept on ties; and a tick removes at most one job
from the pending queues. -/
theorem c5_tick_guard_and_selection (s : QueueState) :
    (s.config.maxConcurrent ≤ s.activeJobs.length → processJobs s = s) ∧
      getNextJob s = selectFirstMax (eligibleHeads s) ∧
      queuedCount (processJobs s) ≤ queuedCount s ∧
      queuedCount s ≤ queuedCount (processJobs s) + 1 := by
  refine ⟨?_, getNextJob_eq_selectFirstMax s, ?_⟩
  · intro h
    simp [processJobs, h]
  · by_cases hg : s.config.maxConcurrent ≤ s.activeJobs.length
    · simp [processJobs, hg]
    · rcases hj : getNextJob s with _ | j
      · simp [processJobs, hg, hj]
      · rcases hp : lookupEntry s.processors j.type with _ | proc
        · simp only [processJobs, if_neg hg, hj, hp]
          have hb := sum_updateEntry_remove s.queues j.type j.id
          simp only [queuedCount, removeJobFromQueue]
          exact hb
        · simp only [processJobs, if_neg hg, hj, hp]
          have hq := processJob_queues s j proc
          have hb := sum_updateEntry_remove s.queues j.type j.id
          simp only [queuedCount, hq, removeJobFromQueue]
          exact hb

/-- C5 witness: with concurrency limit 1 and one active job, a tick leaves
the state unchanged. -/
theorem c5_tick_guard_and_selection_witness :
    processJobs c5BusyState = c5BusyState :=
  (c5_tick_guard_and_selection c5BusyState).1 (by decide)

/-- C7: after any sequence of addJob calls on one type, every queue of the
resulting state is sorted by priority descending; in the concrete scenario
a HIGH job then a LOW job on type email sit in the queue in that order and
are dispatched in that order. -/
theorem c7_queue_sorted_desc_and_dispatch_order :
    (∀ ops : List (Nat × Nat),
      ∀ e ∈ (ops.foldl (fun st dp => addJob "email" dp.1 dp.2 st)
          (initState {})).queues, sortedDesc e.2) ∧
      (lookupEntry c7MidState.queues "email").map
          (List.map (fun j => (j.data, j.priority))) =
        some [(10, highPriority), (20, lowPriority)] ∧
      processedData c7FinalState = [10, 20] := by
  refine ⟨?_, rfl, rfl⟩
  intro ops
  refine allSorted_foldl_addJob ops (initState {}) ?_
  intro e he
  simp [initState] at he

/-- C7 witness: the email queue produced by the concrete two addJob calls
is sorted by priority descending. -/
theorem c7_queue_sorted_desc_and_dispatch_order_witness :
    sortedDesc c7WitnessQueue :=
  (c7_queue_sorted_desc_and_dispatch_order).1 [(10, highPriority), (20, lowPriority)]
    ("email", c7WitnessQueue) (by decide)

/-- C8 witness: clearQueues on a concrete mid-run state keeps the active
set and the queue keys. -/
theorem c8_clearQueues_frame_witness :
    (clearQueues c2State).activeJobs = c2State.activeJobs ∧
      (clearQueues c2State).queues.map Prod.fst = c2State.queues.map Prod.fst :=
  ⟨(c8_clearQueues_frame c2State).1, (c8_clearQueues_frame c2State).2.2.2.2.2.1⟩

/-- C2 (amended): when a dispatched job fails with attempts still below its
budget, the job transitions to RETRYING and remains in the active set, a
backoff timer of retryDelay times the attempt count becomes pending, but
the in-flight mark of its type is released immediately by the finally
block — not held for the backoff window — so another job of the same type
may be dispatched before the timer fires; when a fired timer runs, it
pushes the job back into the queue of its type (re-sorted) and removes it
from the active set. -/
theorem c2_retry_releases_type_mark (s : QueueState) (j : Job)
    (proc : Job → Except String Unit) (msg : String)
    (hc : s.activeJobs.length < s.config.maxConcurrent)
    (hj : getNextJob s = some j)
    (hp : lookupEntry s.processors j.type = some proc)
    (hfail : proc { j with
        status := JobStatus.processing
        attempts := j.attempts + 1
        updatedAt := s.now } = Except.error msg)
    (hretry : j.attempts + 1 < j.maxAttempts) :
    ((j.id, { j with
        status := JobStatus.retrying
        attempts := j.attempts + 1
        updatedAt := s.now
        error := some msg }) ∈ (processJobs s).activeJobs) ∧
      j.type ∉ (processJobs s).processing ∧
      ({ job := { j with
            status := JobStatus.retrying
            attempts := j.attempts + 1
            updatedAt := s.now
            error := some msg }
         due := s.now + s.config.retryDelay * (j.attempts + 1) } : RetryTimer) ∈
        (processJobs s).timers ∧
      (∀ (t : QueueState) (i : Nat) (tm : RetryTimer), t.timers[i]? = some tm →
        tm.due ≤ t.now →
        (fireTimer i t).activeJobs = t.activeJobs.filter (fun e => e.1 ≠ tm.job.id) ∧
        ∀ q, lookupEntry t.queues tm.job.type = some q →
          lookupEntry (fireTimer i t).queues tm.job.type =
            some (jsSortDesc (q ++ [tm.job]))) := by
  have hguard : ¬ s.config.maxConcurrent ≤ s.activeJobs.length := by omega
  simp only [processJobs, if_neg hguard, hj, hp, processJob, hfail]
  rw [if_pos (by simpa using hretry)]
  refine ⟨?_, ?_, ?_, ?_⟩
  · exact mem_setEntry_self _ _ _
  · exact not_mem_delMark _ _
  · simp
  · intro t i tm hget hdue
    exact fireTimer_requeues t i tm hget hdue

/-- C2 witness: the amended statement evaluated on the concrete fixture of
one failing job. -/
theorem c2_retry_releases_type_mark_witness :
    "t" ∉ (processJobs c2PreState).processing ∧
      ({ job := c2RetryJob, due := 1000 } : RetryTimer) ∈
        (processJobs c2PreState).timers := by
  have h := c2_retry_releases_type_mark c2PreState c2PreJob procBoom "boom"
    (by decide) rfl rfl rfl (by decide)
  exact ⟨h.2.1, h.2.2.1⟩

/-- C4 (amended): when no drain is in progress, sendNotification drains the
whole queue including the freshly stamped payload before returning: the
settled results list, payload by payload, exactly the matching enabled
channels (disabled channels and channels whose filters exclude the payload
type are never invoked) each paired with the settled outcome of its own
delivery strategy, so one channel failing neither blocks nor aborts the
others. -/
theorem c4_send_settles_all_when_idle
    (net : String → NotificationPayload → Except String Unit) (now : Nat)
    (s : NotifState) (p : NotificationPayload) (h : s.processing = false) :
    (sendNotification net now s p).1.queue = [] ∧
      (sendNotification net now s p).1.processing = false ∧
      (sendNotification net now s p).2 =
        (s.queue ++ [stampPayload now p]).map (fun q => (q,
          (s.channels.filter (fun e => channelMatches e.2 q)).map
            (fun e => (e.1, deliverToChannel net e.2 q)))) := by
  refine ⟨?_, ?_, ?_⟩
  · simp [sendNotification, h]
  · simp [sendNotification, h]
  · simp only [sendNotification, h, Bool.false_eq_true, if_false]
    rw [drainQueue_eq_map]
    simp only [deliverNotification_eq_filter_map]

/-- C4 witness: the amended statement evaluated on an idle dispatcher. -/
theorem c4_send_settles_all_when_idle_witness :
    (sendNotification netOk 7 idleNotifState pEx).1.queue = [] :=
  (c4_send_settles_all_when_idle netOk 7 idleNotifState pEx rfl).1

theorem qjob_removeJobFromQueue (queues : List (String × List Job)) (j : Job)
    (h : ∀ e ∈ queues, ∀ x ∈ e.2, QJob x) :
    ∀ e ∈ removeJobFromQueue queues j, ∀ x ∈ e.2, QJob x := by
  intro e he x hx
  rcases mem_updateEntry e _ _ _ he with ⟨e0, he0, hor⟩
  rcases hor with h1 | h1
  · subst h1
    exact h e0 he0 x (mem_removeFirstById x j.id e0.2 hx)
  · subst h1
    exact h e he0 x hx

theorem qjob_requeue (queues : List (String × List Job)) (t : String)
    (jb : Job) (h : ∀ e ∈ queues, ∀ x ∈ e.2, QJob x) (hjb : QJob jb) :
    ∀ e ∈ updateEntry queues t (fun q => jsSortDesc (q ++ [jb])),
      ∀ x ∈ e.2, QJob x := by
  intro e he x hx
  rcases mem_updateEntry e _ _ _ he with ⟨e0, he0, hor⟩
  rcases hor with h1 | h1
  · subst h1
    have hx2 := (mem_jsSortDesc x _).mp hx
    rcases List.mem_append.mp hx2 with h2 | h2
    · exact h e0 he0 x h2
    · simp at h2
      subst h2
      exact hjb
  · subst h1
    exact h e he0 x hx

theorem ajob_setEntry (active : List (Nat × Job)) (k : Nat) (v : Job)
    (h : ∀ e ∈ active, AJob e.2) (hv : AJob v) :
    ∀ e ∈ setEntry active k v, AJob e.2 := by
  intro e he
  rcases mem_setEntry e active k v he with h1 | h1
  · subst h1
    exact hv
  · exact h e h1

theorem queueInv_init (cfg : QueueConfig) : QueueInv (initState cfg) := by
  refine ⟨?_, ?_, ?_, ?_, ?_⟩
  · exact orDefault_pos _ _ (by omega)
  · intro e he
    simp [initState] at he
  · intro tm htm
    simp [initState] at htm
  · intro e he
    simp [initState] at he
  · intro ev hev
    simp [initState] at hev

theorem queueInv_addJob (s : QueueState) (t : String) (d p : Nat)
    (h : QueueInv s) : QueueInv (addJob t d p s) := by
  obtain ⟨h1, h2, h3, h4, h5⟩ := h
  have hnew : QJob
      { id := s.nextId
        type := t
        data := d
        priority := p
        status := JobStatus.pending
        attempts := 0
        maxAttempts := s.config.retryAttempts
        createdAt := s.now
        updatedAt := s.now
        processedAt := none
        error := none } := by
    constructor
    · exact h1
    · simp
  refine ⟨h1, ?_, h3, h4, ?_⟩
  · simp only [addJob]
    rcases hm : lookupEntry s.queues t with _ | q0
    · refine qjob_requeue _ t _ ?_ hnew
      intro e he x hx
      rcases List.mem_append.mp he with h6 | h6
      · exact h2 e h6 x hx
      · simp at h6
        subst h6
        simp at hx
    · exact qjob_requeue _ t _ h2 hnew
  · simp only [addJob]
    intro ev hev
    rcases List.mem_append.mp hev with h6 | h6
    · exact h5 ev h6
    · simp at h6
      subst h6
      exact ⟨hnew.1.le, by simp [eventJob]⟩

theorem queueInv_processJob (s : QueueState) (j : Job)
    (proc : Job → Except String Unit) (hQ : QueueInv s)
    (hjle : j.attempts < j.maxAttempts) :
    QueueInv (processJob s j proc) := by
  obtain ⟨h1, h2, h3, h4, h5⟩ := hQ
  have hqueues := qjob_removeJobFromQueue s.queues j h2
  have hj1 : AJob { j with
      status := JobStatus.processing
      attempts := j.attempts + 1
      updatedAt := s.now } := by
    constructor
    · simpa using hjle
    · simp [AJob]
  have hactive1 := ajob_setEntry s.activeJobs j.id _ h4 hj1
  have hev1 : ∀ ev ∈ s.events ++ [QEvent.jobProcessing { j with
      status := JobStatus.processing
      attempts := j.attempts + 1
      updatedAt := s.now }], EJob (eventJob ev) := by
    intro ev hev
    rcases List.mem_append.mp hev with h6 | h6
    · exact h5 ev h6
    · simp at h6
      subst h6
      refine ⟨by simpa using hjle, by simp [eventJob]⟩
  simp only [processJob]
  split
  · refine ⟨h1, hqueues, h3, ?_, ?_⟩
    · refine ajob_setEntry _ _ _ hactive1 ?_
      constructor
      · simpa using hjle
      · simp [AJob]
    · intro ev hev
      rcases List.mem_append.mp hev with h6 | h6
      · exact hev1 ev h6
      · simp at h6
        subst h6
        refine ⟨by simpa using hjle, by simp [eventJob]⟩
  · by_cases hlt : j.attempts + 1 < j.maxAttempts
    · rw [if_pos (by simpa using hlt)]
      refine ⟨h1, hqueues, ?_, ?_, ?_⟩
      · intro tm htm
        rcases List.mem_append.mp htm with h6 | h6
        · exact h3 tm h6
        · simp at h6
          subst h6
          refine ⟨by simpa using hlt, by simp [QJob]⟩
      · refine ajob_setEntry _ _ _ hactive1 ?_
        constructor
        · simpa using hlt.le
        · simp [AJob]
      · intro ev hev
        rcases List.mem_append.mp hev with h6 | h6
        · exact hev1 ev h6
        · simp at h6
          subst h6
          refine ⟨by simpa using hlt.le, by simp [eventJob]⟩
    · rw [if_neg (by simpa using hlt)]
      have heq : j.attempts + 1 = j.maxAttempts := by omega
      refine ⟨h1, hqueues, h3, ?_, ?_⟩
      · intro e he
        exact hactive1 e (List.mem_of_mem_filter he)
      · intro ev hev
        rcases List.mem_append.mp hev with h6 | h6
        · exact hev1 ev h6
        · simp at h6
          subst h6
          refine ⟨by simpa using heq.le, by simp [eventJob]; omega⟩

theorem queueInv_processJobs (s : QueueState) (h : QueueInv s) :
    QueueInv (processJobs s) := by
  by_cases hg : s.config.maxConcurrent ≤ s.activeJobs.length
  · simpa [processJobs, hg] using h
  · rcases hj : getNextJob s with _ | j
    · simpa [processJobs, hg, hj] using h
    · have hjle : j.attempts < j.maxAttempts := by
        rcases getNextJob_mem s j hj with ⟨e, he, hx⟩
        exact (h.2.1 e he j hx).1
      rcases hp : lookupEntry s.processors j.type with _ | proc
      · simp only [processJobs, if_neg hg, hj, hp]
        obtain ⟨h1, h2, h3, h4, h5⟩ := h
        exact ⟨h1, qjob_removeJobFromQueue s.queues j h2, h3, h4, h5⟩
      · simp only [processJobs, if_neg hg, hj, hp]
        exact queueInv_processJob s j proc h hjle

theorem queueInv_fireTimer (s : QueueState) (i : Nat) (h : QueueInv s) :
    QueueInv (fireTimer i s) := by
  obtain ⟨h1, h2, h3, h4, h5⟩ := h
  rcases hget : s.timers[i]? with _ | tm
  · simpa [fireTimer, hget] using ⟨h1, h2, h3, h4, h5⟩
  · by_cases hdue : tm.due ≤ s.now
    · have htm : QJob tm.job := h3 tm (List.get?_mem (by simpa using hget))
      simp only [fireTimer, hget, if_pos hdue]
      refine ⟨h1, ?_, ?_, ?_, h5⟩
      · rcases hm : lookupEntry s.queues tm.job.type with _ | q0
        · exact h2
        · exact qjob_requeue _ _ _ h2 htm
      · intro t2 ht2
        exact h3 t2 (List.mem_of_mem_eraseIdx ht2)
      · intro e he
        exact h4 e (List.mem_of_mem_filter he)
    · simpa [fireTimer, hget, hdue] using ⟨h1, h2, h3, h4, h5⟩

theorem queueInv_applyAction (s : QueueState) (a : QAction)
    (h : QueueInv s) : QueueInv (applyAction s a) := by
  cases a with
  | addJob t d p => exact queueInv_addJob s t d p h
  | registerProcessor t p =>
    obtain ⟨h1, h2, h3, h4, h5⟩ := h
    exact ⟨h1, h2, h3, h4, h5⟩
  | tick => exact queueInv_processJobs s h
  | fireTimer i => exact queueInv_fireTimer s i h
  | clearQueues =>
    obtain ⟨h1, h2, h3, h4, h5⟩ := h
    refine ⟨h1, ?_, h3, h4, h5⟩
    intro e he x hx
    rcases List.mem_map.mp he with ⟨e0, _, heq⟩
    rw [← heq] at hx
    simp at hx
  | elapse n =>
    obtain ⟨h1, h2, h3, h4, h5⟩ := h
    exact ⟨h1, h2, h3, h4, h5⟩

theorem queueInv_applyActions (acts : List QAction) :
    ∀ s, QueueInv s → QueueInv (applyActions acts s) := by
  induction acts with
  | nil =>
    intro s h
    simpa [applyActions] using h
  | cons a rest ih =>
    intro s h
    exact ih _ (queueInv_applyAction s a h)

/-- C3: over every run from a fresh scheduler, every job record anywhere in
the state (queued, active, timer-held or snapshot in an event) satisfies
attempts at most maxAttempts, and a FAILED status implies attempts equals
maxAttempts; in the concrete always-failing scenario with maxAttempts 3 the
job is still RETRYING with attempts 2 after its second failure (no FAILED
transition yet) and reaches FAILED exactly after the third failed attempt
with attempts 3 — never 4 — carrying the last thrown message. -/
theorem c3_attempts_bounded_and_failed_at_k (cfg : QueueConfig)
    (acts : List QAction) :
    (∀ x ∈ allJobs (applyActions acts (initState cfg)),
        x.attempts ≤ x.maxAttempts ∧
          (x.status = JobStatus.failed → x.attempts = x.maxAttempts)) ∧
      failedRecords (applyActions c3TwoAttemptActions (initState {})) = [] ∧
      (applyActions c3TwoAttemptActions (initState {})).activeJobs.map
          (fun e => (e.2.status, e.2.attempts)) = [(JobStatus.retrying, 2)] ∧
      failedRecords (applyActions c3ThreeAttemptActions (initState {})) =
        [(3, some "final failure")] ∧
      (applyActions c3ThreeAttemptActions (initState {})).activeJobs = [] := by
  refine ⟨?_, rfl, rfl, rfl, rfl⟩
  intro x hx
  obtain ⟨h1, h2, h3, h4, h5⟩ :=
    queueInv_applyActions acts (initState cfg) (queueInv_init cfg)
  simp only [allJobs, List.mem_append] at hx
  rcases hx with ((hq | ha) | ht) | he
  · rcases List.mem_flatten.mp hq with ⟨l, hl, hxl⟩
    rcases List.mem_map.mp hl with ⟨e, he2, heq⟩
    rw [← heq] at hxl
    have := h2 e he2 x hxl
    exact ⟨this.1.le, fun hf => absurd hf this.2⟩
  · rcases List.mem_map.mp ha with ⟨e, he2, heq⟩
    have := h4 e he2
    rw [heq] at this
    exact ⟨this.1, fun hf => absurd hf this.2⟩
  · rcases List.mem_map.mp ht with ⟨tm, htm, heq⟩
    have := h3 tm htm
    rw [heq] at this
    exact ⟨this.1.le, fun hf => absurd hf this.2⟩
  · rcases List.mem_map.mp he with ⟨ev, hev, heq⟩
    have := h5 ev hev
    rw [heq] at this
    exact this

/-- C3 witness: the invariant applied to the terminal FAILED snapshot of
the concrete scenario. -/
theorem c3_attempts_bounded_and_failed_at_k_witness :
    c3FailedJob.attempts = c3FailedJob.maxAttempts :=
  ((c3_attempts_bounded_and_failed_at_k {} c3ThreeAttemptActions).1
    c3FailedJob (by decide)).2 rfl
